import Mathlib

/-!
Shallow embedding of the PDF-extraction core of `webfetch` (file `pdf.go`):
the page-text reconstruction heuristic (`extractPageText`), the page
scheduler and worker pool of `convertPDFToMarkdown`, the assembler that
joins per-worker buffers, and the ingestion size guard.

Coordinates of text fragments are modelled as rationals (the Go code uses
`float64`; the algorithms only add, subtract, multiply by the constant 0.2
and compare, so `ℚ` is the exact model of the arithmetic the control flow
depends on).  The byte stream handed to `convertPDFToMarkdown` is modelled
by the number of bytes it yields plus an optional read error; the external
container parser (`pdf.NewReader` / `NumPage` / `Page`) is modelled by an
abstract parse result: a page count and a partial map from page numbers to
fragment lists (`none` models `page.V.IsNull()`).
-/

namespace Webfetch

/-- Positioned text fragment, mirroring the fields of `pdf.Text` that
`extractPageText` reads: the string `S`, position `X`/`Y`, width `W` and
`FontSize`. -/
structure Text where
  S : String
  X : ℚ
  Y : ℚ
  W : ℚ
  FontSize : ℚ
deriving DecidableEq

/-- Model of `abs` from pdf.go lines 100-105: absolute value of a
coordinate difference. -/
def abs (x : ℚ) : ℚ :=
  if x < 0 then -x else x

/-- Loop body of `extractPageText` (pdf.go lines 57-96): walk the
fragment list with the accumulated output `buf` and the `lastText` cursor
(`none` models `hasLast == false`). -/
def extractLoop (buf : String) (cursor : Option Text) : List Text → String
  | [] => buf
  | t :: rest =>
    if t.S = "" then
      extractLoop buf cursor rest
    else
      match cursor with
      | none => extractLoop (buf ++ t.S) (some t) rest
      | some lastText =>
        if abs (t.Y - lastText.Y) > 1 then
          extractLoop (buf ++ "\n" ++ t.S) (some t) rest
        else
          let expectedX := lastText.X + lastText.W
          let gap := t.X - expectedX
          let threshold := lastText.FontSize * 0.2
          let threshold := if threshold < 1 then 1 else threshold
          extractLoop (buf ++ (if gap > threshold then " " else "") ++ t.S) (some t) rest

/-- Model of `extractPageText` (pdf.go lines 48-97).  The Go function
appends to the caller's buffer; here `buf` is that buffer's current
content and the result is its final content. -/
def extractPageText (content : List Text) (buf : String) : String :=
  if content.length = 0 then buf else extractLoop buf none content

/-- Separator the specification prescribes between two consecutive
non-empty fragments: newline on a line change, space on a wide gap,
nothing otherwise (spec-side definition for claim C1, following the
spec's words `max(1.0, cursor.fontSize × 0.2)`). -/
def specJoin (cursor t : Text) : String :=
  if abs (t.Y - cursor.Y) > 1 then "\n"
  else if t.X - (cursor.X + cursor.W) > max 1 (cursor.FontSize * 0.2) then " "
  else ""

/-- Spec-side page-text reconstruction for claim C1: drop empty
fragments, emit the first verbatim, then fold, emitting `specJoin`
before each fragment's text and advancing the cursor. -/
def extractPageTextSpec (content : List Text) : String :=
  match content.filter (fun t => t.S ≠ "") with
  | [] => ""
  | f :: rest =>
    (rest.foldl (fun acc t => (acc.1 ++ specJoin acc.2 t ++ t.S, t)) (f.S, f)).1

/-- Maximum PDF size in bytes (pdf.go line 16): 100 MiB. -/
def maxPDFSize : Nat := 100 * 1024 * 1024

/-- Maximum number of extraction workers (pdf.go line 18). -/
def maxConcurrency : Nat := 32

/-- Number of workers (pdf.go line 152):
`min(runtime.GOMAXPROCS(0), numPages, maxConcurrency)`, with the
available parallelism passed in as a parameter. -/
def numWorkersOf (parallelism numPages : Nat) : Nat :=
  min parallelism (min numPages maxConcurrency)

/-- Page-range computation of the scheduling loop (pdf.go lines 164-199):
worker `i` takes `pagesPerWorker` pages plus one extra while `i < extraPages`,
and `page` advances by that count; `remaining` counts the iterations left.
Returns the list of `(pageStart, pageEnd)` pairs, `pageEnd` exclusive. -/
def workerRangesGo (base extra : Nat) : Nat → Nat → Nat → List (Nat × Nat)
  | _, 0, _ => []
  | i, remaining + 1, page =>
    let count := base + (if i < extra then 1 else 0)
    (page, page + count) :: workerRangesGo base extra (i + 1) remaining (page + count)

/-- Page ranges assigned to the workers (pdf.go lines 156-199):
`pagesPerWorker = numPages / numWorkers`, `extraPages = numPages % numWorkers`,
pages start at 1. -/
def workerRanges (numPages numWorkers : Nat) : List (Nat × Nat) :=
  workerRangesGo (numPages / numWorkers) (numPages % numWorkers) 0 numWorkers 1

/-- Page separator written between page blocks (pdf.go lines 183 and 210). -/
def sep : String := "\n\n---\n\n"

/-- Result of parsing the buffered bytes as a PDF: the page count
(`pdfReader.NumPage()`) and the page lookup (`pdfReader.Page(n)`), where
`none` models a page whose `page.V.IsNull()` holds and `some frags`
models a page with content fragments `frags`. -/
structure ParsedDoc where
  numPages : Nat
  pageOf : Nat → Option (List Text)

/-- Block a worker writes for one page (pdf.go lines 185-192): the header
`## Page N`, a blank line, then the reconstructed text, or the error
marker when the page lookup fails. -/
def pageBlock (doc : ParsedDoc) (pageNum : Nat) : String :=
  "## Page " ++ toString pageNum ++ "\n\n" ++
    match doc.pageOf pageNum with
    | none => "[Error: page not found]\n"
    | some frags => extractPageText frags ""

/-- Per-page loop of one worker (pdf.go lines 181-193), with `fuel` the
number of pages left in the range: prepend the separator unless this is
the range's first page, write the header, then the page text or the
error marker into the worker's buffer. -/
def workerLoop (doc : ParsedDoc) (pageStart : Nat) : Nat → Nat → String → String
  | 0, _, buf => buf
  | fuel + 1, pageNum, buf =>
    let buf := if pageNum > pageStart then buf ++ sep else buf
    let buf := buf ++ "## Page " ++ toString pageNum ++ "\n\n"
    let buf :=
      match doc.pageOf pageNum with
      | none => buf ++ "[Error: page not found]\n"
      | some frags => extractPageText frags buf
    workerLoop doc pageStart fuel (pageNum + 1) buf

/-- Content of the range buffer a worker produces for the page range
`[pageStart, pageEnd)` (pdf.go lines 175-196). -/
def workerRangeText (doc : ParsedDoc) (pageStart pageEnd : Nat) : String :=
  workerLoop doc pageStart (pageEnd - pageStart) pageStart ""

/-- Assembly loop of `convertPDFToMarkdown` (pdf.go lines 207-215): walk
the worker buffers in index order; before buffer `i`, write the page
separator when `i > 0 && workerBuf.Len() > 0` — note the condition reads
the length of the CURRENT buffer `workerBuffers[i]`. -/
def assembleBuffers (bufs : List String) : String :=
  (bufs.foldl
    (fun acc b =>
      ((if 0 < acc.2 ∧ 0 < b.length then acc.1 ++ sep else acc.1) ++ b, acc.2 + 1))
    ("", 0)).1

/-- Sequential value of the parallel phase plus assembly (pdf.go lines
152-217) for a parsed document: schedule the ranges, compute each range
buffer, assemble in worker-index order.  This is the canonical (worker
completion-order independent) output; `runOutput` below models an
explicit completion order and is proved to agree with it. -/
def convertBody (doc : ParsedDoc) (parallelism : Nat) : String :=
  let numWorkers := numWorkersOf parallelism doc.numPages
  assembleBuffers
    ((workerRanges doc.numPages numWorkers).map
      (fun p => workerRangeText doc p.1 p.2))

/-- Errors `convertPDFToMarkdown` can return (pdf.go lines 112, 130, 135,
143), one constructor per `fmt.Errorf` site. -/
inductive PDFError where
  | tooLargeDeclared (contentLength : Int)
  | readFailed (msg : String)
  | tooLargeActual
  | parseFailed (msg : String)
deriving DecidableEq

/-- Phase of `convertPDFToMarkdown` after the size guard (pdf.go lines
141-217): parse the buffered bytes (`pdf.NewReader`), return empty
output for a zero-page document, otherwise run the page-processing
phase `body`. -/
def parsePhase (parse : Except String ParsedDoc) (body : ParsedDoc → String) :
    String × Option PDFError :=
  match parse with
  | Except.error e => ("", some (PDFError.parseFailed e))
  | Except.ok doc =>
    if doc.numPages = 0 then ("", none)
    else (body doc, none)

/-- Guard-and-parse skeleton of `convertPDFToMarkdown` (pdf.go lines
109-149) with the page-processing phase abstracted as `body`: reject an
oversize declared length before reading; read through the limited reader
(at most `maxPDFSize + 1` bytes); reject when the bytes read exceed
`maxPDFSize`; then hand over to `parsePhase`.  The result pairs the
returned string with the returned error, mirroring Go's `(string, error)`. -/
def convertCore (streamLen : Nat) (readErr : Option String) (contentLength : Int)
    (parse : Except String ParsedDoc) (body : ParsedDoc → String) :
    String × Option PDFError :=
  if contentLength > (maxPDFSize : Int) then
    ("", some (PDFError.tooLargeDeclared contentLength))
  else
    match readErr with
    | some e => ("", some (PDFError.readFailed e))
    | none =>
      let bytesRead := min streamLen (maxPDFSize + 1)
      if bytesRead > maxPDFSize then ("", some PDFError.tooLargeActual)
      else parsePhase parse body

/-- Model of `convertPDFToMarkdown` (pdf.go lines 109-218).
`streamLen` is the number of bytes the reader would yield, `readErr` an
error the read may fail with, `contentLength` the declared length (−1
when unknown), `parse` the container parser's result on the buffered
bytes, `parallelism` the value of `runtime.GOMAXPROCS(0)`. -/
def convertPDFToMarkdown (streamLen : Nat) (readErr : Option String)
    (contentLength : Int) (parse : Except String ParsedDoc) (parallelism : Nat) :
    String × Option PDFError :=
  convertCore streamLen readErr contentLength parse
    (fun doc => convertBody doc parallelism)

/-- Number of bytes `convertPDFToMarkdown` consumes from the stream: none
when the declared length already exceeds the ceiling (the function
returns before `buf.ReadFrom`), otherwise what the `io.LimitReader` with
bound `maxPDFSize + 1` lets through (pdf.go lines 111-128). -/
def bytesReadBy (streamLen : Nat) (contentLength : Int) : Nat :=
  if contentLength > (maxPDFSize : Int) then 0 else min streamLen (maxPDFSize + 1)

/-- Value worker `i` stores into `workerBuffers[i]` (pdf.go line 195):
the range text for its assigned range; out-of-range indices (never
spawned) map to the empty string. -/
def workerText (doc : ParsedDoc) (parallelism i : Nat) : String :=
  match (workerRanges doc.numPages (numWorkersOf parallelism doc.numPages)).get? i with
  | some p => workerRangeText doc p.1 p.2
  | none => ""

/-- Concurrency model of the parallel phase: `order` is the order in
which the workers complete and perform their single write to the shared
`workerBuffers` array (modelled as a function from slot index to
content, initially empty).  Each completing worker `i` updates slot `i`
with its range text. -/
def runWorkers (doc : ParsedDoc) (parallelism : Nat) (order : List Nat) :
    Nat → String :=
  order.foldl
    (fun bufs i => Function.update bufs i (workerText doc parallelism i)) (fun _ => "")

/-- Output assembled after the workers completed in the given `order`:
read slots `0 .. numWorkers-1` of the buffer array and run the assembly
loop on them. -/
def runOutput (doc : ParsedDoc) (parallelism : Nat) (order : List Nat) : String :=
  assembleBuffers
    ((List.range (numWorkersOf parallelism doc.numPages)).map
      (runWorkers doc parallelism order))

/-- Model of `convertPDFToMarkdown` with an explicit worker completion
order, for the determinism claim: identical to `convertPDFToMarkdown`
except that the parallel phase runs with completion order `order`. -/
def convertWithOrder (streamLen : Nat) (readErr : Option String)
    (contentLength : Int) (parse : Except String ParsedDoc)
    (parallelism : Nat) (order : List Nat) : String × Option PDFError :=
  convertCore streamLen readErr contentLength parse
    (fun doc => runOutput doc parallelism order)

/-- Claim-side assembler for C8, following the claim's words: between two
buffers, insert the separator only if the EARLIER buffer is non-empty
and this isn't the first buffer (the fold carries output, index, and the
previous buffer). -/
def assembleEarlier (bufs : List String) : String :=
  (bufs.foldl
    (fun acc b =>
      ((if 0 < acc.2.1 ∧ 0 < acc.2.2.length then acc.1 ++ sep else acc.1) ++ b,
        acc.2.1 + 1, b))
    ("", 0, "")).1

/-- Concatenation of the buffers after the first, each preceded by the
separator exactly when that buffer itself is non-empty. -/
def condJoin : List String → String
  | [] => ""
  | b :: bs => (if 0 < b.length then sep ++ b else b) ++ condJoin bs

/-- Amended assembler contract: the first buffer is emitted verbatim, and
each later buffer is preceded by the separator exactly when that buffer
itself is non-empty, so an empty buffer contributes nothing. -/
def assembleCurrentSpec (bufs : List String) : String :=
  match bufs with
  | [] => ""
  | b :: bs => b ++ condJoin bs

/-- Tail of a separator-joined list: `sep ++ b` for every element.  Used
to relate `String.intercalate sep` to the loops above. -/
def tailJoin : List String → String
  | [] => ""
  | b :: bs => sep ++ b ++ tailJoin bs

/-- Concrete fragment: the word `Hello` at the line origin. -/
def fragHello : Text := ⟨"Hello", 0, 0, 10, 10⟩

/-- Concrete fragment: the word `World`, separated from `Hello` by a gap
of 10 units (above the threshold `max 1 (10 * 0.2) = 2`). -/
def fragWorld : Text := ⟨"World", 20, 0, 10, 10⟩

/-- Concrete fragment: the word `Second` at the line origin. -/
def fragSecond : Text := ⟨"Second", 0, 0, 10, 10⟩

/-- Concrete fragment: the word `Page`, a word gap after `Second`. -/
def fragPage : Text := ⟨"Page", 20, 0, 10, 10⟩

/-- Concrete two-page document reconstructing to `Hello World` and
`Second Page`. -/
def docHello : ParsedDoc :=
  ⟨2, fun n =>
    if n = 1 then some [fragHello, fragWorld]
    else if n = 2 then some [fragSecond, fragPage]
    else none⟩

/-- Concrete three-page document whose middle page lookup fails. -/
def docMissing : ParsedDoc :=
  ⟨3, fun n =>
    if n = 1 then some [fragHello, fragWorld]
    else if n = 3 then some [fragSecond, fragPage]
    else none⟩

/-- Concrete zero-page document. -/
def docEmpty : ParsedDoc := ⟨0, fun _ => none⟩

/-! ### Page text reconstruction (claim C1) -/

/-- Lowering the threshold to 1 in the code is the same as taking
`max 1` of it, as the spec words it. -/
theorem ite_lt_one_eq_max (x : ℚ) : (if x < 1 then (1 : ℚ) else x) = max 1 x := by
  rcases lt_or_le x 1 with h | h
  · rw [if_pos h, max_eq_left h.le]
  · rw [if_neg (not_lt.2 h), max_eq_right h]

/-- Spec-side separator on a line change. -/
theorem specJoin_newline {lastText t : Text} (hY : abs (t.Y - lastText.Y) > 1) :
    specJoin lastText t = "\n" := by
  unfold specJoin
  rw [if_pos hY]

/-- Spec-side separator on the same line: a space exactly on a wide gap. -/
theorem specJoin_gap {lastText t : Text} (hY : ¬abs (t.Y - lastText.Y) > 1) :
    specJoin lastText t =
      (if t.X - (lastText.X + lastText.W) > max 1 (lastText.FontSize * 0.2)
        then " " else "") := by
  unfold specJoin
  rw [if_neg hY]

/-- Loop of `extractPageText` with a set cursor computes the spec-side
fold over the non-empty fragments. -/
theorem extractLoop_some (l : List Text) : ∀ (buf : String) (lastText : Text),
    extractLoop buf (some lastText) l =
      ((l.filter (fun t => t.S ≠ "")).foldl
        (fun acc t => (acc.1 ++ specJoin acc.2 t ++ t.S, t)) (buf, lastText)).1 := by
  induction l with
  | nil => intro buf lastText; rfl
  | cons t rest ih =>
    intro buf lastText
    by_cases hS : t.S = ""
    · have hfil : List.filter (fun x => x.S ≠ "") (t :: rest)
          = List.filter (fun x => x.S ≠ "") rest := by
        simp [List.filter_cons, hS]
      rw [hfil]
      simp only [extractLoop, if_pos hS]
      exact ih buf lastText
    · have hfil : List.filter (fun x => x.S ≠ "") (t :: rest)
          = t :: List.filter (fun x => x.S ≠ "") rest := by
        simp [List.filter_cons, hS]
      rw [hfil, List.foldl_cons]
      simp only [extractLoop, if_neg hS]
      by_cases hY : abs (t.Y - lastText.Y) > 1
      · rw [if_pos hY, ih, specJoin_newline hY]
      · rw [if_neg hY, ite_lt_one_eq_max, ih, specJoin_gap hY]

/-- Spec-side fold only appends to the accumulated string. -/
theorem foldl_spec_append (l : List Text) : ∀ (a buf : String) (lastText : Text),
    (l.foldl (fun acc t => (acc.1 ++ specJoin acc.2 t ++ t.S, t)) (buf ++ a, lastText)).1 =
      buf ++ (l.foldl (fun acc t => (acc.1 ++ specJoin acc.2 t ++ t.S, t)) (a, lastText)).1 := by
  induction l with
  | nil => intro a buf lastText; rfl
  | cons u l ih =>
    intro a buf lastText
    simp only [List.foldl_cons]
    rw [String.append_assoc (buf ++ a), String.append_assoc buf a, ← String.append_assoc a]
    exact ih _ buf u

/-- Loop of `extractPageText` with no cursor yet appends the spec-side
reconstruction to the buffer. -/
theorem extractLoop_none (l : List Text) : ∀ buf : String,
    extractLoop buf none l = buf ++ extractPageTextSpec l := by
  induction l with
  | nil =>
    intro buf
    rw [show extractPageTextSpec [] = "" from rfl, String.append_empty]
    rfl
  | cons t rest ih =>
    intro buf
    by_cases hS : t.S = ""
    · have hspec : extractPageTextSpec (t :: rest) = extractPageTextSpec rest := by
        unfold extractPageTextSpec
        have hfil : List.filter (fun x => x.S ≠ "") (t :: rest)
            = List.filter (fun x => x.S ≠ "") rest := by
          simp [List.filter_cons, hS]
        rw [hfil]
      rw [hspec]
      simp only [extractLoop, if_pos hS]
      exact ih buf
    · have hfil : List.filter (fun x => x.S ≠ "") (t :: rest)
          = t :: List.filter (fun x => x.S ≠ "") rest := by
        simp [List.filter_cons, hS]
      have hspec : extractPageTextSpec (t :: rest)
          = ((List.filter (fun x => x.S ≠ "") rest).foldl
              (fun acc u => (acc.1 ++ specJoin acc.2 u ++ u.S, u)) (t.S, t)).1 := by
        unfold extractPageTextSpec
        rw [hfil]
      rw [hspec]
      simp only [extractLoop, if_neg hS]
      rw [extractLoop_some]
      exact foldl_spec_append _ t.S buf t

/-- C1: for every page given as an ordered sequence of positioned text
fragments, `extractPageText` skips empty fragments, emits the first
non-empty fragment verbatim, then before each subsequent non-empty
fragment emits a newline when `|Δy| > 1`, else a single space exactly
when the gap `t.X - (cursor.X + cursor.W)` exceeds
`max 1 (cursor.FontSize * 0.2)`, advancing the cursor each time — i.e.
it computes the spec-side reconstruction `extractPageTextSpec`. -/
theorem claim_C1_extract_matches_spec (content : List Text) :
    extractPageText content "" = extractPageTextSpec content := by
  unfold extractPageText
  by_cases h : content.length = 0
  · rw [if_pos h]
    have hnil : content = [] := List.length_eq_zero.1 h
    subst hnil
    rfl
  · rw [if_neg h, extractLoop_none, String.empty_append]

/-! ### Page scheduler (claims C2 and C9) -/

/-- Scheduling loop produces one range per remaining worker. -/
theorem workerRangesGo_length (base extra : Nat) : ∀ (r i page : Nat),
    (workerRangesGo base extra i r page).length = r := by
  intro r
  induction r with
  | zero => intro i page; rfl
  | succ r ih =>
    intro i page
    simp only [workerRangesGo, List.length_cons, ih]

/-- Range sizes of the scheduling loop: `base + 1` while the worker index
is below `extra`, else `base`. -/
theorem workerRangesGo_sizes (base extra : Nat) : ∀ (r i page : Nat),
    (workerRangesGo base extra i r page).map (fun p => p.2 - p.1)
      = (List.range' i r).map (fun j => if j < extra then base + 1 else base) := by
  intro r
  induction r with
  | zero => intro i page; rfl
  | succ r ih =>
    intro i page
    rw [List.range'_succ]
    simp only [workerRangesGo, List.map_cons, ih]
    congr 1
    rw [Nat.add_sub_cancel_left]
    by_cases h : i < extra
    · rw [if_pos h, if_pos h]
    · rw [if_neg h, if_neg h, Nat.add_zero]

/-- Pages covered by the scheduling loop: the contiguous block starting
at `page` whose length is the sum of the remaining range sizes. -/
theorem workerRangesGo_flatten (base extra : Nat) : ∀ (r i page : Nat),
    ((workerRangesGo base extra i r page).map
        (fun p => List.range' p.1 (p.2 - p.1))).flatten
      = List.range' page
          (((List.range' i r).map (fun j => if j < extra then base + 1 else base)).sum) := by
  intro r
  induction r with
  | zero => intro i page; rfl
  | succ r ih =>
    intro i page
    rw [List.range'_succ]
    simp only [workerRangesGo, List.map_cons, List.flatten_cons, ih, List.sum_cons]
    rw [Nat.add_sub_cancel_left]
    have hc : (if i < extra then base + 1 else base)
        = base + (if i < extra then 1 else 0) := by
      by_cases h : i < extra
      · rw [if_pos h, if_pos h]
      · rw [if_neg h, if_neg h, Nat.add_zero]
    rw [hc, List.range'_append_1, Nat.add_comm]

/-- Ranges of the scheduling loop form a contiguous chain: each range
ends where the next one starts. -/
theorem workerRangesGo_chain (base extra : Nat) : ∀ (r i page : Nat),
    List.Chain' (fun p q => p.2 = q.1) (workerRangesGo base extra i r page) := by
  intro r
  induction r with
  | zero => intro i page; exact List.chain'_nil
  | succ r ih =>
    intro i page
    cases r with
    | zero => exact List.chain'_singleton _
    | succ r' =>
      simp only [workerRangesGo]
      exact List.chain'_cons.2 ⟨rfl, ih _ _⟩

/-- Sum of the scheduled range sizes over `n` workers. -/
theorem sizesSum (base extra : Nat) : ∀ n : Nat,
    ((List.range' 0 n).map (fun j => if j < extra then base + 1 else base)).sum
      = n * base + min n extra := by
  intro n
  induction n with
  | zero => simp
  | succ n ih =>
    rw [List.range'_1_concat, List.map_append, List.sum_append]
    simp only [List.map_cons, List.map_nil, List.sum_cons, List.sum_nil, Nat.zero_add]
    rw [ih, Nat.succ_mul]
    by_cases h : n < extra
    · rw [if_pos h, min_eq_left h.le, min_eq_left h]
      omega
    · rw [if_neg h, min_eq_right (Nat.le_of_not_lt h),
        min_eq_right (le_trans (Nat.le_of_not_lt h) (Nat.le_succ n))]
      omega

/-- Number of workers is at least 1 and at most each of the three
arguments of the `min`. -/
theorem numWorkersOf_bounds (parallelism numPages : Nat)
    (hpar : 1 ≤ parallelism) (hnp : 1 ≤ numPages) :
    1 ≤ numWorkersOf parallelism numPages
    ∧ numWorkersOf parallelism numPages ≤ numPages
    ∧ numWorkersOf parallelism numPages ≤ maxConcurrency := by
  unfold numWorkersOf maxConcurrency
  omega

/-- Scheduled range sizes, at the top level: `base + 1` for the first
`extra` workers, `base` for the rest. -/
theorem workerRanges_sizes (numPages numWorkers : Nat) :
    (workerRanges numPages numWorkers).map (fun p => p.2 - p.1)
      = (List.range' 0 numWorkers).map
          (fun j => if j < numPages % numWorkers then numPages / numWorkers + 1
            else numPages / numWorkers) :=
  workerRangesGo_sizes _ _ _ _ _

/-- Scheduled ranges cover exactly the pages `1 .. numPages`, in order. -/
theorem workerRanges_flatten (numPages numWorkers : Nat) (hw : 1 ≤ numWorkers) :
    ((workerRanges numPages numWorkers).map
        (fun p => List.range' p.1 (p.2 - p.1))).flatten = List.range' 1 numPages := by
  unfold workerRanges
  rw [workerRangesGo_flatten, sizesSum,
    min_eq_right (Nat.le_of_lt (Nat.mod_lt _ hw)), Nat.div_add_mod]

/-- C2: for `numPages ≥ 1` and parallelism ≥ 1, the scheduler uses
`numWorkers = min(parallelism, numPages, 32)` workers; the ranges are one
per worker, contiguous (each ends where the next starts), cover exactly
the pages `1 .. numPages` in increasing order, have sizes `base + 1` for
the first `numPages % numWorkers` workers and `base = numPages / numWorkers`
for the rest, sum to `numPages`, and any two sizes differ by at most 1. -/
theorem claim_C2_scheduler (numPages parallelism : Nat)
    (hpar : 1 ≤ parallelism) (hnp : 1 ≤ numPages) :
    (workerRanges numPages (numWorkersOf parallelism numPages)).length
        = numWorkersOf parallelism numPages
    ∧ List.Chain' (fun p q => p.2 = q.1)
        (workerRanges numPages (numWorkersOf parallelism numPages))
    ∧ ((workerRanges numPages (numWorkersOf parallelism numPages)).map
          (fun p => List.range' p.1 (p.2 - p.1))).flatten = List.range' 1 numPages
    ∧ (workerRanges numPages (numWorkersOf parallelism numPages)).map
          (fun p => p.2 - p.1)
        = (List.range' 0 (numWorkersOf parallelism numPages)).map
            (fun j => if j < numPages % numWorkersOf parallelism numPages
              then numPages / numWorkersOf parallelism numPages + 1
              else numPages / numWorkersOf parallelism numPages)
    ∧ ((workerRanges numPages (numWorkersOf parallelism numPages)).map
          (fun p => p.2 - p.1)).sum = numPages
    ∧ ∀ p ∈ workerRanges numPages (numWorkersOf parallelism numPages),
        ∀ q ∈ workerRanges numPages (numWorkersOf parallelism numPages),
          p.2 - p.1 ≤ (q.2 - q.1) + 1 := by
  obtain ⟨hw1, hwn, hwc⟩ := numWorkersOf_bounds parallelism numPages hpar hnp
  have hsize : ∀ p ∈ workerRanges numPages (numWorkersOf parallelism numPages),
      p.2 - p.1 = numPages / numWorkersOf parallelism numPages
        ∨ p.2 - p.1 = numPages / numWorkersOf parallelism numPages + 1 := by
    intro p hp
    have hmem : p.2 - p.1 ∈ (workerRanges numPages
        (numWorkersOf parallelism numPages)).map (fun p => p.2 - p.1) :=
      List.mem_map_of_mem _ hp
    rw [workerRanges_sizes] at hmem
    obtain ⟨j, _, hj⟩ := List.mem_map.1 hmem
    by_cases h : j < numPages % numWorkersOf parallelism numPages
    · right; rw [← hj, if_pos h]
    · left; rw [← hj, if_neg h]
  refine ⟨workerRangesGo_length _ _ _ _ _, workerRangesGo_chain _ _ _ _ _,
    workerRanges_flatten _ _ hw1, workerRanges_sizes _ _, ?_, ?_⟩
  · rw [workerRanges_sizes, sizesSum,
      min_eq_right (Nat.le_of_lt (Nat.mod_lt _ hw1)), Nat.div_add_mod]
  · intro p hp q hq
    rcases hsize p hp with h1 | h1 <;> rcases hsize q hq with h2 | h2 <;> omega

/-- C9: the worker count is between 1 and `maxConcurrency = 32`, one
range per worker is scheduled, every spawned worker index fits the
32-slot buffer array, and in any completion order (a permutation of the
spawned indices) every slot the assembler reads is written exactly
once. -/
theorem claim_C9_worker_bounds (numPages parallelism : Nat)
    (hpar : 1 ≤ parallelism) (hnp : 1 ≤ numPages) :
    1 ≤ numWorkersOf parallelism numPages
    ∧ numWorkersOf parallelism numPages ≤ maxConcurrency
    ∧ (workerRanges numPages (numWorkersOf parallelism numPages)).length
        = numWorkersOf parallelism numPages
    ∧ (∀ i ∈ List.range (numWorkersOf parallelism numPages), i < maxConcurrency)
    ∧ ∀ order : List Nat,
        order.Perm (List.range (numWorkersOf parallelism numPages)) →
          ∀ i < numWorkersOf parallelism numPages, order.count i = 1 := by
  obtain ⟨hw1, hwn, hwc⟩ := numWorkersOf_bounds parallelism numPages hpar hnp
  refine ⟨hw1, hwc, workerRangesGo_length _ _ _ _ _, ?_, ?_⟩
  · intro i hi
    exact lt_of_lt_of_le (List.mem_range.1 hi) hwc
  · intro order hperm i hi
    rw [hperm.count_eq]
    exact List.count_eq_one_of_mem (List.nodup_range _) (List.mem_range.2 hi)

/-! ### Separator-joined strings and the assembler (claim C8) -/

/-- Accumulator loop of `String.intercalate` appends the separator-led
tail. -/
theorem intercalate_go_tailJoin : ∀ (as : List String) (acc : String),
    String.intercalate.go acc sep as = acc ++ tailJoin as := by
  intro as
  induction as with
  | nil =>
    intro acc
    rw [show tailJoin [] = "" from rfl, String.append_empty]
    rfl
  | cons a as ih =>
    intro acc
    simp only [String.intercalate.go]
    rw [ih]
    simp only [tailJoin]
    simp [String.append_assoc]

/-- Unfolding of `String.intercalate sep` on a non-empty list. -/
theorem intercalate_cons (a : String) (as : List String) :
    String.intercalate sep (a :: as) = a ++ tailJoin as := by
  unfold String.intercalate
  exact intercalate_go_tailJoin as a

/-- Separator-led tails concatenate. -/
theorem tailJoin_append (l₁ l₂ : List String) :
    tailJoin (l₁ ++ l₂) = tailJoin l₁ ++ tailJoin l₂ := by
  induction l₁ with
  | nil => rw [List.nil_append, show tailJoin [] = "" from rfl, String.empty_append]
  | cons b bs ih =>
    rw [List.cons_append]
    simp only [tailJoin]
    rw [ih]
    simp [String.append_assoc]

/-- Joining two non-empty lists inserts exactly one separator between
their joined halves. -/
theorem intercalate_append_of_ne_nil (l₁ l₂ : List String)
    (h₁ : l₁ ≠ []) (h₂ : l₂ ≠ []) :
    String.intercalate sep (l₁ ++ l₂)
      = String.intercalate sep l₁ ++ sep ++ String.intercalate sep l₂ := by
  cases l₁ with
  | nil => exact absurd rfl h₁
  | cons a as =>
    cases l₂ with
    | nil => exact absurd rfl h₂
    | cons b bs =>
      rw [List.cons_append, intercalate_cons, intercalate_cons, intercalate_cons,
        tailJoin_append]
      simp only [tailJoin]
      simp [String.append_assoc]

/-- Fold of the assembly loop with a positive index: every later buffer
is preceded by a separator exactly when it is itself non-empty. -/
theorem assembleFold (bufs : List String) : ∀ (acc : String) (k : Nat), 0 < k →
    (bufs.foldl
        (fun acc b =>
          ((if 0 < acc.2 ∧ 0 < b.length then acc.1 ++ sep else acc.1) ++ b, acc.2 + 1))
        (acc, k)).1 = acc ++ condJoin bufs := by
  induction bufs with
  | nil =>
    intro acc k hk
    rw [show condJoin [] = "" from rfl, String.append_empty]
    rfl
  | cons b bs ih =>
    intro acc k hk
    rw [List.foldl_cons]
    simp only [condJoin]
    by_cases hb : 0 < b.length
    · rw [if_pos ⟨hk, hb⟩, if_pos hb, ih _ (k + 1) (Nat.succ_pos k)]
      simp [String.append_assoc]
    · rw [if_neg (fun hc => hb hc.2), if_neg hb, ih _ (k + 1) (Nat.succ_pos k)]
      simp [String.append_assoc]

/-- Assembly loop on a non-empty buffer list: the first buffer verbatim,
then the conditionally separated rest. -/
theorem assembleBuffers_cons (b : String) (bs : List String) :
    assembleBuffers (b :: bs) = b ++ condJoin bs := by
  unfold assembleBuffers
  rw [List.foldl_cons, if_neg (fun hc => lt_irrefl 0 hc.1), String.empty_append]
  exact assembleFold bs b 1 Nat.one_pos

/-- C8 counterexample: on the buffer sequence `["", "x"]` the assembly
loop inserts a separator before `"x"` although the earlier buffer is
empty, while the claim's earlier-buffer rule would join them bare; the
claimed rule does not describe the code. -/
theorem claim_C8_counterexample :
    assembleBuffers ["", "x"] = sep ++ "x"
      ∧ assembleEarlier ["", "x"] = "x"
      ∧ assembleBuffers ["", "x"] ≠ assembleEarlier ["", "x"] := by
  refine ⟨rfl, rfl, ?_⟩
  decide

/-- C8 amended: the assembler concatenates the buffers in worker-index
order and, before each buffer other than the first, inserts the page
separator exactly when that (current) buffer is non-empty; an empty
buffer contributes nothing. -/
theorem claim_C8_assembler_amended (bufs : List String) :
    assembleBuffers bufs = assembleCurrentSpec bufs := by
  cases bufs with
  | nil => rfl
  | cons b bs =>
    rw [assembleBuffers_cons]
    rfl

/-- With only non-empty buffers, the conditional separators are always
inserted. -/
theorem condJoin_eq_tailJoin (bufs : List String) (h : ∀ b ∈ bufs, 0 < b.length) :
    condJoin bufs = tailJoin bufs := by
  induction bufs with
  | nil => rfl
  | cons b bs ih =>
    simp only [condJoin, tailJoin]
    rw [if_pos (h b (List.mem_cons_self b bs)),
      ih (fun x hx => h x (List.mem_cons_of_mem _ hx))]

/-- On non-empty buffers the assembly loop is exactly
`String.intercalate sep`. -/
theorem assembleBuffers_intercalate (bufs : List String)
    (h : ∀ b ∈ bufs, 0 < b.length) :
    assembleBuffers bufs = String.intercalate sep bufs := by
  cases bufs with
  | nil => rfl
  | cons b bs =>
    rw [assembleBuffers_cons,
      condJoin_eq_tailJoin bs (fun x hx => h x (List.mem_cons_of_mem _ hx)),
      intercalate_cons]

/-- Joining per-chunk joins equals joining the flattened chunks, when no
chunk is empty. -/
theorem intercalate_flatten (ls : List (List String)) (h : ∀ l ∈ ls, l ≠ []) :
    String.intercalate sep (ls.map (String.intercalate sep))
      = String.intercalate sep ls.flatten := by
  induction ls with
  | nil => rfl
  | cons l ls ih =>
    cases ls with
    | nil =>
      rw [List.map_cons, List.map_nil, List.flatten_cons, List.flatten_nil,
        List.append_nil, intercalate_cons, show tailJoin [] = "" from rfl,
        String.append_empty]
    | cons l' ls' =>
      have hl : l ≠ [] := h l (List.mem_cons_self _ _)
      have hl' : l' ≠ [] := h l' (List.mem_cons_of_mem _ (List.mem_cons_self _ _))
      have hflat : (l' :: ls').flatten ≠ [] := by
        rw [List.flatten_cons]
        intro hc
        rw [List.append_eq_nil] at hc
        exact hl' hc.1
      have hmapne : (l' :: ls').map (String.intercalate sep) ≠ [] := by
        simp
      rw [List.map_cons, List.flatten_cons,
        show String.intercalate sep l :: (l' :: ls').map (String.intercalate sep)
          = [String.intercalate sep l] ++ (l' :: ls').map (String.intercalate sep)
          from rfl,
        intercalate_append_of_ne_nil _ _ (by simp) hmapne,
        ih (fun x hx => h x (List.mem_cons_of_mem _ hx)),
        intercalate_append_of_ne_nil l _ hl hflat,
        show String.intercalate sep [String.intercalate sep l]
          = String.intercalate sep l ++ tailJoin [] from intercalate_cons _ _,
        show tailJoin [] = "" from rfl, String.append_empty]

/-! ### Worker loop and the assembled document (claims C4 and C5) -/

/-- Page-text extraction only appends to the buffer it is handed. -/
theorem extractPageText_append (frags : List Text) (buf : String) :
    extractPageText frags buf = buf ++ extractPageText frags "" := by
  unfold extractPageText
  by_cases h : frags.length = 0
  · rw [if_pos h, if_pos h, String.append_empty]
  · rw [if_neg h, if_neg h, extractLoop_none, extractLoop_none, String.empty_append]

/-- Worker loop past its first page: appends a separator-led block per
remaining page. -/
theorem workerLoop_tailJoin (doc : ParsedDoc) (pageStart : Nat) :
    ∀ (fuel pageNum : Nat), pageStart < pageNum → ∀ buf : String,
    workerLoop doc pageStart fuel pageNum buf
      = buf ++ tailJoin ((List.range' pageNum fuel).map (pageBlock doc)) := by
  intro fuel
  induction fuel with
  | zero =>
    intro pageNum h buf
    rw [show List.range' pageNum 0 = [] from rfl, List.map_nil,
      show tailJoin [] = "" from rfl, String.append_empty]
    rfl
  | succ fuel ih =>
    intro pageNum h buf
    rw [List.range'_succ, List.map_cons]
    cases hpage : doc.pageOf pageNum with
    | none =>
      simp only [workerLoop, if_pos h, hpage]
      rw [ih (pageNum + 1) (Nat.lt_succ_of_lt h)]
      simp only [tailJoin, pageBlock, hpage]
      simp only [String.append_assoc, String.empty_append, String.append_empty]
    | some frags =>
      simp only [workerLoop, if_pos h, hpage]
      rw [extractPageText_append, ih (pageNum + 1) (Nat.lt_succ_of_lt h)]
      simp only [tailJoin, pageBlock, hpage]
      simp only [String.append_assoc, String.empty_append, String.append_empty]

/-- Range buffer a worker produces: the separator-joined page blocks of
its range, in ascending page order. -/
theorem workerRangeText_intercalate (doc : ParsedDoc) (pageStart pageEnd : Nat) :
    workerRangeText doc pageStart pageEnd
      = String.intercalate sep
          ((List.range' pageStart (pageEnd - pageStart)).map (pageBlock doc)) := by
  unfold workerRangeText
  generalize pageEnd - pageStart = n
  cases n with
  | zero => rfl
  | succ n =>
    rw [List.range'_succ, List.map_cons, intercalate_cons]
    cases hpage : doc.pageOf pageStart with
    | none =>
      simp only [workerLoop, lt_irrefl, if_neg, hpage, if_false]
      rw [workerLoop_tailJoin doc pageStart n (pageStart + 1) (Nat.lt_succ_self _)]
      simp only [pageBlock, hpage]
      simp only [String.append_assoc, String.empty_append, String.append_empty]
    | some frags =>
      simp only [workerLoop, lt_irrefl, if_neg, hpage, if_false]
      rw [extractPageText_append,
        workerLoop_tailJoin doc pageStart n (pageStart + 1) (Nat.lt_succ_self _)]
      simp only [pageBlock, hpage]
      simp only [String.append_assoc, String.empty_append, String.append_empty]

/-- Page blocks are never empty: each starts with its header. -/
theorem pageBlock_length_pos (doc : ParsedDoc) (n : Nat) :
    0 < (pageBlock doc n).length := by
  unfold pageBlock
  simp only [String.length_append]
  have h8 : "## Page ".length = 8 := rfl
  omega

/-- Range sizes scheduled for `numWorkers ≤ numPages` workers are
positive. -/
theorem workerRanges_size_pos (numPages numWorkers : Nat)
    (hw1 : 1 ≤ numWorkers) (hwn : numWorkers ≤ numPages) :
    ∀ p ∈ workerRanges numPages numWorkers, 0 < p.2 - p.1 := by
  intro p hp
  have hmem : p.2 - p.1 ∈ (workerRanges numPages numWorkers).map (fun p => p.2 - p.1) :=
    List.mem_map_of_mem _ hp
  rw [workerRanges_sizes] at hmem
  obtain ⟨j, _, hj⟩ := List.mem_map.1 hmem
  have hbase : 1 ≤ numPages / numWorkers := (Nat.one_le_div_iff hw1).2 hwn
  by_cases h : j < numPages % numWorkers
  · rw [if_pos h] at hj; omega
  · rw [if_neg h] at hj; omega

/-- Body of a successful conversion: the page blocks `1 .. numPages`,
joined by the page separator, in ascending page order. -/
theorem convertBody_eq (doc : ParsedDoc) (parallelism : Nat)
    (hpar : 1 ≤ parallelism) (hnp : 1 ≤ doc.numPages) :
    convertBody doc parallelism
      = String.intercalate sep ((List.range' 1 doc.numPages).map (pageBlock doc)) := by
  obtain ⟨hw1, hwn, hwc⟩ := numWorkersOf_bounds parallelism doc.numPages hpar hnp
  unfold convertBody
  show assembleBuffers
      ((workerRanges doc.numPages (numWorkersOf parallelism doc.numPages)).map
        (fun p => workerRangeText doc p.1 p.2))
    = String.intercalate sep ((List.range' 1 doc.numPages).map (pageBlock doc))
  rw [List.map_congr_left (fun (p : Nat × Nat) _ => workerRangeText_intercalate doc p.1 p.2)]
  have hsizes := workerRanges_size_pos doc.numPages
    (numWorkersOf parallelism doc.numPages) hw1 hwn
  rw [assembleBuffers_intercalate]
  · have hmm : (workerRanges doc.numPages (numWorkersOf parallelism doc.numPages)).map
        (fun p => String.intercalate sep ((List.range' p.1 (p.2 - p.1)).map (pageBlock doc)))
        = ((workerRanges doc.numPages (numWorkersOf parallelism doc.numPages)).map
            (fun p => (List.range' p.1 (p.2 - p.1)).map (pageBlock doc))).map
              (String.intercalate sep) := by
      rw [List.map_map]
      rfl
    rw [hmm, intercalate_flatten]
    · have hmm2 : ((workerRanges doc.numPages (numWorkersOf parallelism doc.numPages)).map
            (fun p => (List.range' p.1 (p.2 - p.1)).map (pageBlock doc))).flatten
          = (((workerRanges doc.numPages (numWorkersOf parallelism doc.numPages)).map
              (fun p => List.range' p.1 (p.2 - p.1))).flatten).map (pageBlock doc) := by
        rw [List.map_flatten, List.map_map]
        rfl
      rw [hmm2, workerRanges_flatten _ _ hw1]
    · intro l hl
      obtain ⟨p, hp, hpl⟩ := List.mem_map.1 hl
      rw [← hpl]
      intro hc
      rw [List.map_eq_nil_iff, List.range'_eq_nil] at hc
      exact absurd hc (Nat.pos_iff_ne_zero.1 (hsizes p hp))
  · intro b hb
    obtain ⟨p, hp, hpb⟩ := List.mem_map.1 hb
    rw [← hpb]
    obtain ⟨n, hn⟩ : ∃ n, p.2 - p.1 = n + 1 :=
      ⟨p.2 - p.1 - 1, by have := hsizes p hp; omega⟩
    rw [hn, List.range'_succ, List.map_cons, intercalate_cons, String.length_append]
    have := pageBlock_length_pos doc p.1
    omega

/-! ### The conversion entry point (claims C3, C4, C5, C6, C10) -/

/-- Successful conversion: no error, and the output is the separator-join
of the page blocks in ascending page order. -/
theorem convert_ok (streamLen : Nat) (contentLength : Int) (parallelism : Nat)
    (doc : ParsedDoc) (hs : streamLen ≤ maxPDFSize)
    (hc : contentLength ≤ (maxPDFSize : Int))
    (hpar : 1 ≤ parallelism) (hnp : 1 ≤ doc.numPages) :
    convertPDFToMarkdown streamLen none contentLength (Except.ok doc) parallelism
      = (String.intercalate sep ((List.range' 1 doc.numPages).map (pageBlock doc)),
          none) := by
  simp only [convertPDFToMarkdown, convertCore, parsePhase]
  rw [if_neg (not_lt.2 hc),
    if_neg (by omega : ¬ min streamLen (maxPDFSize + 1) > maxPDFSize),
    if_neg (by omega : ¬ doc.numPages = 0),
    convertBody_eq doc parallelism hpar hnp]

/-- C3: an oversize declared length is rejected with no byte read; a
stream longer than the ceiling (under an accepted declared length) is
rejected after reading at most `maxPDFSize + 1` bytes; a stream of
exactly `maxPDFSize` bytes passes the guard and proceeds to the parse
phase. -/
theorem claim_C3_size_guard (streamLen : Nat) (readErr : Option String)
    (contentLength : Int) (parse : Except String ParsedDoc) (parallelism : Nat) :
    (contentLength > (maxPDFSize : Int) →
      convertPDFToMarkdown streamLen readErr contentLength parse parallelism
          = ("", some (PDFError.tooLargeDeclared contentLength))
        ∧ bytesReadBy streamLen contentLength = 0)
    ∧ (contentLength ≤ (maxPDFSize : Int) → maxPDFSize < streamLen →
        convertPDFToMarkdown streamLen none contentLength parse parallelism
            = ("", some PDFError.tooLargeActual)
          ∧ bytesReadBy streamLen contentLength ≤ maxPDFSize + 1)
    ∧ (contentLength ≤ (maxPDFSize : Int) →
        convertPDFToMarkdown maxPDFSize none contentLength parse parallelism
          = parsePhase parse (fun doc => convertBody doc parallelism)) := by
  refine ⟨fun h => ⟨?_, ?_⟩, fun h1 h2 => ⟨?_, ?_⟩, fun h1 => ?_⟩
  · simp only [convertPDFToMarkdown, convertCore]
    rw [if_pos h]
  · unfold bytesReadBy
    rw [if_pos h]
  · simp only [convertPDFToMarkdown, convertCore]
    rw [if_neg (not_lt.2 h1),
      if_pos (by omega : min streamLen (maxPDFSize + 1) > maxPDFSize)]
  · unfold bytesReadBy
    rw [if_neg (not_lt.2 h1)]
    omega
  · simp only [convertPDFToMarkdown, convertCore]
    rw [if_neg (not_lt.2 h1),
      if_neg (by omega : ¬ min maxPDFSize (maxPDFSize + 1) > maxPDFSize)]

/-- C4: on a successfully parsed document with at least one page the
output is exactly one block per page, pages `1 .. numPages` in strictly
ascending order with no gaps or duplicates, each block being the header
`## Page N`, a blank line, and the reconstructed text (or the error
marker), consecutive blocks joined by the separator
(blank line, `---`, blank line). -/
theorem claim_C4_output_structure (streamLen : Nat) (contentLength : Int)
    (parallelism : Nat) (doc : ParsedDoc)
    (hs : streamLen ≤ maxPDFSize) (hc : contentLength ≤ (maxPDFSize : Int))
    (hpar : 1 ≤ parallelism) (hnp : 1 ≤ doc.numPages) :
    convertPDFToMarkdown streamLen none contentLength (Except.ok doc) parallelism
      = (String.intercalate sep ((List.range' 1 doc.numPages).map (pageBlock doc)),
          none)
    ∧ ∀ n : Nat,
        pageBlock doc n
          = "## Page " ++ toString n ++ "\n\n"
              ++ (match doc.pageOf n with
                  | none => "[Error: page not found]\n"
                  | some frags => extractPageText frags "") :=
  ⟨convert_ok streamLen contentLength parallelism doc hs hc hpar hnp, fun _ => rfl⟩

/-- C5: a page whose lookup fails does not abort the call: extraction
still succeeds, the failing page's block carries the error marker in
place of reconstructed text, and every other page's block is the normal
reconstruction. -/
theorem claim_C5_page_lookup_failure (streamLen : Nat) (contentLength : Int)
    (parallelism p : Nat) (doc : ParsedDoc)
    (hs : streamLen ≤ maxPDFSize) (hc : contentLength ≤ (maxPDFSize : Int))
    (hpar : 1 ≤ parallelism) (hnp : 1 ≤ doc.numPages)
    (hp : doc.pageOf p = none) :
    (convertPDFToMarkdown streamLen none contentLength (Except.ok doc) parallelism).2
        = none
    ∧ (convertPDFToMarkdown streamLen none contentLength (Except.ok doc) parallelism).1
        = String.intercalate sep ((List.range' 1 doc.numPages).map (pageBlock doc))
    ∧ pageBlock doc p = "## Page " ++ toString p ++ "\n\n" ++ "[Error: page not found]\n"
    ∧ ∀ q frags, doc.pageOf q = some frags →
        pageBlock doc q = "## Page " ++ toString q ++ "\n\n" ++ extractPageText frags "" := by
  have h := convert_ok streamLen contentLength parallelism doc hs hc hpar hnp
  refine ⟨by rw [h], by rw [h], ?_, ?_⟩
  · unfold pageBlock
    rw [hp]
  · intro q frags hq
    unfold pageBlock
    rw [hq]

/-- C6: a successfully parsed zero-page document converts to the empty
string with no error. -/
theorem claim_C6_zero_pages (streamLen : Nat) (contentLength : Int)
    (parallelism : Nat) (doc : ParsedDoc)
    (hs : streamLen ≤ maxPDFSize) (hc : contentLength ≤ (maxPDFSize : Int))
    (hnp : doc.numPages = 0) :
    convertPDFToMarkdown streamLen none contentLength (Except.ok doc) parallelism
      = ("", none) := by
  simp only [convertPDFToMarkdown, convertCore, parsePhase]
  rw [if_neg (not_lt.2 hc),
    if_neg (by omega : ¬ min streamLen (maxPDFSize + 1) > maxPDFSize), if_pos hnp]

/-- C10: whenever the conversion returns an error, the returned string is
exactly empty — no partial text accompanies an error. -/
theorem claim_C10_empty_on_error (streamLen : Nat) (readErr : Option String)
    (contentLength : Int) (parse : Except String ParsedDoc) (parallelism : Nat)
    (e : PDFError)
    (h : (convertPDFToMarkdown streamLen readErr contentLength parse parallelism).2
        = some e) :
    (convertPDFToMarkdown streamLen readErr contentLength parse parallelism).1 = "" := by
  have halt : (convertPDFToMarkdown streamLen readErr contentLength parse parallelism).1
        = ""
      ∨ (convertPDFToMarkdown streamLen readErr contentLength parse parallelism).2
        = none := by
    simp only [convertPDFToMarkdown, convertCore, parsePhase]
    split
    · left; rfl
    · split
      · left; rfl
      · split
        · left; rfl
        · split
          · left; rfl
          · split
            · right; rfl
            · right; rfl
  rcases halt with h1 | h1
  · exact h1
  · rw [h1] at h
    exact absurd h (by simp)

/-! ### Completion-order independence (claim C7) -/

/-- Folding the workers' slot writes: a slot that some completing worker
wrote holds that worker's text (every write to slot `i` stores the same
value), any other slot keeps its initial content. -/
theorem runWorkers_eq (doc : ParsedDoc) (parallelism : Nat) :
    ∀ (order : List Nat) (f : Nat → String) (i : Nat),
      (order.foldl
          (fun bufs j => Function.update bufs j (workerText doc parallelism j)) f) i
        = if i ∈ order then workerText doc parallelism i else f i := by
  intro order
  induction order with
  | nil => intro f i; simp
  | cons j t ih =>
    intro f i
    rw [List.foldl_cons, ih]
    by_cases hm : i ∈ t
    · rw [if_pos hm, if_pos (List.mem_cons_of_mem _ hm)]
    · rw [if_neg hm]
      by_cases hij : i = j
      · subst hij
        rw [if_pos (List.mem_cons_self _ _), Function.update_same]
      · rw [Function.update_noteq hij,
          if_neg (by simp [hij, hm] : ¬ i ∈ j :: t)]

/-- One scheduled range per worker. -/
theorem workerRanges_length (numPages numWorkers : Nat) :
    (workerRanges numPages numWorkers).length = numWorkers :=
  workerRangesGo_length _ _ _ _ _

/-- Reading slots `0 .. numWorkers-1` of the fully written buffer array
yields exactly the per-range buffers in worker-index order. -/
theorem map_workerText_eq (doc : ParsedDoc) (parallelism : Nat) :
    (List.range (numWorkersOf parallelism doc.numPages)).map (workerText doc parallelism)
      = (workerRanges doc.numPages (numWorkersOf parallelism doc.numPages)).map
          (fun p => workerRangeText doc p.1 p.2) := by
  apply List.ext_get?
  intro n
  rw [List.get?_map, List.get?_map]
  by_cases h : n < numWorkersOf parallelism doc.numPages
  · have hlen : n < (workerRanges doc.numPages
        (numWorkersOf parallelism doc.numPages)).length := by
      rw [workerRanges_length]
      exact h
    rw [List.get?_range h, List.get?_eq_get hlen]
    simp only [Option.map_some']
    congr 1
    unfold workerText
    rw [List.get?_eq_get hlen]
  · have hlen1 : (List.range (numWorkersOf parallelism doc.numPages)).length ≤ n := by
      rw [List.length_range]
      omega
    have hlen2 : (workerRanges doc.numPages
        (numWorkersOf parallelism doc.numPages)).length ≤ n := by
      rw [workerRanges_length]
      omega
    rw [List.get?_eq_none.2 hlen1, List.get?_eq_none.2 hlen2]
    rfl

/-- Any completion order that is a permutation of the spawned worker
indices assembles to the canonical output. -/
theorem runOutput_eq (doc : ParsedDoc) (parallelism : Nat) (order : List Nat)
    (hperm : order.Perm (List.range (numWorkersOf parallelism doc.numPages))) :
    runOutput doc parallelism order = convertBody doc parallelism := by
  unfold runOutput convertBody
  show assembleBuffers ((List.range (numWorkersOf parallelism doc.numPages)).map
        (runWorkers doc parallelism order))
      = assembleBuffers ((workerRanges doc.numPages
          (numWorkersOf parallelism doc.numPages)).map
            (fun p => workerRangeText doc p.1 p.2))
  rw [← map_workerText_eq]
  congr 1
  apply List.map_congr_left
  intro i hi
  unfold runWorkers
  rw [runWorkers_eq, if_pos (hperm.mem_iff.2 hi)]

/-- Conversion with any permutation completion order equals the
canonical conversion. -/
theorem convertWithOrder_eq (streamLen : Nat) (readErr : Option String)
    (contentLength : Int) (parse : Except String ParsedDoc) (parallelism : Nat)
    (order : List Nat)
    (h : ∀ doc, parse = Except.ok doc →
        order.Perm (List.range (numWorkersOf parallelism doc.numPages))) :
    convertWithOrder streamLen readErr contentLength parse parallelism order
      = convertPDFToMarkdown streamLen readErr contentLength parse parallelism := by
  cases parse with
  | error e => rfl
  | ok doc =>
    have hdoc := h doc rfl
    simp only [convertWithOrder, convertPDFToMarkdown, convertCore, parsePhase]
    rw [runOutput_eq doc parallelism order hdoc]

/-- C7: extraction is a deterministic function of the input: for any two
worker completion orders (each a permutation of the spawned worker
indices) the converted result is identical, and equals the canonical
conversion — re-running on byte-identical input and declared length
yields a byte-identical output and the same error. -/
theorem claim_C7_determinism (streamLen : Nat) (readErr : Option String)
    (contentLength : Int) (parse : Except String ParsedDoc) (parallelism : Nat)
    (order₁ order₂ : List Nat)
    (h₁ : ∀ doc, parse = Except.ok doc →
        order₁.Perm (List.range (numWorkersOf parallelism doc.numPages)))
    (h₂ : ∀ doc, parse = Except.ok doc →
        order₂.Perm (List.range (numWorkersOf parallelism doc.numPages))) :
    convertWithOrder streamLen readErr contentLength parse parallelism order₁
        = convertWithOrder streamLen readErr contentLength parse parallelism order₂
    ∧ convertWithOrder streamLen readErr contentLength parse parallelism order₁
        = convertPDFToMarkdown streamLen readErr contentLength parse parallelism := by
  have e₁ := convertWithOrder_eq streamLen readErr contentLength parse parallelism order₁ h₁
  have e₂ := convertWithOrder_eq streamLen readErr contentLength parse parallelism order₂ h₂
  exact ⟨e₁.trans e₂.symm, e₁⟩

/-! ### Witnesses: the claim theorems applied at concrete inputs -/

/-- Witness for C2 at 7 pages and parallelism 3 (the spec's own example:
sizes `[3, 2, 2]` covering `[1-3], [4-5], [6-7]`). -/
theorem claim_C2_scheduler_witness :
    (1 ≤ 3 ∧ 1 ≤ 7)
    ∧ ((workerRanges 7 (numWorkersOf 3 7)).length = numWorkersOf 3 7
      ∧ List.Chain' (fun p q => p.2 = q.1) (workerRanges 7 (numWorkersOf 3 7))
      ∧ ((workerRanges 7 (numWorkersOf 3 7)).map
            (fun p => List.range' p.1 (p.2 - p.1))).flatten = List.range' 1 7
      ∧ (workerRanges 7 (numWorkersOf 3 7)).map (fun p => p.2 - p.1)
          = (List.range' 0 (numWorkersOf 3 7)).map
              (fun j => if j < 7 % numWorkersOf 3 7
                then 7 / numWorkersOf 3 7 + 1 else 7 / numWorkersOf 3 7)
      ∧ ((workerRanges 7 (numWorkersOf 3 7)).map (fun p => p.2 - p.1)).sum = 7
      ∧ ∀ p ∈ workerRanges 7 (numWorkersOf 3 7),
          ∀ q ∈ workerRanges 7 (numWorkersOf 3 7), p.2 - p.1 ≤ (q.2 - q.1) + 1) :=
  ⟨⟨by decide, by decide⟩, claim_C2_scheduler 7 3 (by decide) (by decide)⟩

/-- Witness for C3: a 200 MiB declared length is rejected unread; a
stream of `maxPDFSize + 1` bytes under unknown length (−1) is rejected;
a stream of exactly `maxPDFSize` bytes proceeds to the parse phase. -/
theorem claim_C3_size_guard_witness :
    (convertPDFToMarkdown 0 none 209715200 (Except.error "bad") 1
        = ("", some (PDFError.tooLargeDeclared 209715200))
      ∧ bytesReadBy 0 209715200 = 0)
    ∧ (convertPDFToMarkdown 104857601 none (-1) (Except.error "bad") 1
        = ("", some PDFError.tooLargeActual)
      ∧ bytesReadBy 104857601 (-1) ≤ maxPDFSize + 1)
    ∧ convertPDFToMarkdown maxPDFSize none (-1) (Except.ok docEmpty) 1
        = parsePhase (Except.ok docEmpty) (fun doc => convertBody doc 1) :=
  ⟨(claim_C3_size_guard 0 none 209715200 (Except.error "bad") 1).1 (by decide),
    (claim_C3_size_guard 104857601 none (-1) (Except.error "bad") 1).2.1
      (by decide) (by decide),
    (claim_C3_size_guard maxPDFSize none (-1) (Except.ok docEmpty) 1).2.2 (by decide)⟩

/-- Witness for C4 at the two-page `Hello World` / `Second Page`
document. -/
theorem claim_C4_output_structure_witness :
    (1000 ≤ maxPDFSize ∧ (1000 : Int) ≤ (maxPDFSize : Int)
      ∧ 1 ≤ 2 ∧ 1 ≤ docHello.numPages)
    ∧ (convertPDFToMarkdown 1000 none 1000 (Except.ok docHello) 2
        = (String.intercalate sep
            ((List.range' 1 docHello.numPages).map (pageBlock docHello)), none)
      ∧ ∀ n : Nat,
          pageBlock docHello n
            = "## Page " ++ toString n ++ "\n\n"
                ++ (match docHello.pageOf n with
                    | none => "[Error: page not found]\n"
                    | some frags => extractPageText frags "")) :=
  ⟨⟨by decide, by decide, by decide, by decide⟩,
    claim_C4_output_structure 1000 1000 2 docHello
      (by decide) (by decide) (by decide) (by decide)⟩

/-- Witness for C5 at the three-page document whose page 2 lookup
fails. -/
theorem claim_C5_page_lookup_failure_witness :
    docMissing.pageOf 2 = none
    ∧ ((convertPDFToMarkdown 1000 none 1000 (Except.ok docMissing) 2).2 = none
      ∧ (convertPDFToMarkdown 1000 none 1000 (Except.ok docMissing) 2).1
          = String.intercalate sep
              ((List.range' 1 docMissing.numPages).map (pageBlock docMissing))
      ∧ pageBlock docMissing 2
          = "## Page " ++ toString 2 ++ "\n\n" ++ "[Error: page not found]\n"
      ∧ ∀ q frags, docMissing.pageOf q = some frags →
          pageBlock docMissing q
            = "## Page " ++ toString q ++ "\n\n" ++ extractPageText frags "") :=
  ⟨by decide,
    claim_C5_page_lookup_failure 1000 1000 2 2 docMissing
      (by decide) (by decide) (by decide) (by decide) (by decide)⟩

/-- Witness for C6 at a zero-page document. -/
theorem claim_C6_zero_pages_witness :
    docEmpty.numPages = 0
    ∧ convertPDFToMarkdown 5 none 7 (Except.ok docEmpty) 3 = ("", none) :=
  ⟨by decide, claim_C6_zero_pages 5 7 3 docEmpty (by decide) (by decide) (by decide)⟩

/-- Witness for C7: with two workers on the two-page document, the
completion orders `[1, 0]` and `[0, 1]` produce the same result, equal to
the canonical conversion. -/
theorem claim_C7_determinism_witness :
    convertWithOrder 1000 none 1000 (Except.ok docHello) 2 [1, 0]
        = convertWithOrder 1000 none 1000 (Except.ok docHello) 2 [0, 1]
    ∧ convertWithOrder 1000 none 1000 (Except.ok docHello) 2 [1, 0]
        = convertPDFToMarkdown 1000 none 1000 (Except.ok docHello) 2 :=
  claim_C7_determinism 1000 none 1000 (Except.ok docHello) 2 [1, 0] [0, 1]
    (fun doc h => by
      injection h with h'
      subst h'
      rw [show List.range (numWorkersOf 2 docHello.numPages) = [0, 1] by decide]
      exact List.isPerm_iff.1 (by decide))
    (fun doc h => by
      injection h with h'
      subst h'
      rw [show List.range (numWorkersOf 2 docHello.numPages) = [0, 1] by decide])

/-- Witness for C9 at 7 pages and parallelism 3. -/
theorem claim_C9_worker_bounds_witness :
    (1 ≤ 3 ∧ 1 ≤ 7)
    ∧ (1 ≤ numWorkersOf 3 7
      ∧ numWorkersOf 3 7 ≤ maxConcurrency
      ∧ (workerRanges 7 (numWorkersOf 3 7)).length = numWorkersOf 3 7
      ∧ (∀ i ∈ List.range (numWorkersOf 3 7), i < maxConcurrency)
      ∧ ∀ order : List Nat, order.Perm (List.range (numWorkersOf 3 7)) →
          ∀ i < numWorkersOf 3 7, order.count i = 1) :=
  ⟨⟨by decide, by decide⟩, claim_C9_worker_bounds 7 3 (by decide) (by decide)⟩

/-- Witness for C10 at an oversize declared length. -/
theorem claim_C10_empty_on_error_witness :
    (convertPDFToMarkdown 0 none 209715200 (Except.error "bad") 1).2
        = some (PDFError.tooLargeDeclared 209715200)
    ∧ (convertPDFToMarkdown 0 none 209715200 (Except.error "bad") 1).1 = "" :=
  ⟨by decide,
    claim_C10_empty_on_error 0 none 209715200 (Except.error "bad") 1
      (PDFError.tooLargeDeclared 209715200) (by decide)⟩

end Webfetch
